import Mathlib

/-!
Shallow embedding of `greenbone-feed-sync` (`src/greenbone/feed/sync/main.py`)
and verification of its specification.

The Python module orchestrates feed synchronization: it filters sync
specifications by feed type into lock-guarded groups (`filter_syncs`), then
(`feed_sync`) refuses to run as root, iterates the groups, acquires each
non-empty group's file lock inside an `async with` scope, runs the transfers
sequentially, applies the fail-fast / continue-on-error policy, and `main`
maps the outcome to a process exit status.

The embedding is effect-explicit: the observable actions of a run (lock
acquisition and release, transfer invocations, writes to the error stream)
are collected in a trace of `Event`s, and exceptional control flow
(`GreenboneFeedSyncError`, `RsyncError`, `KeyboardInterrupt`, any other
exception) is made explicit in result types.  The transfer collaborator
(`rsync.sync`) is a parameter `outcome : Sync → TransferResult` giving, for
each spec, what its transfer does in this run.
-/

namespace GreenboneFeed

/-- Embedding of `@dataclass Sync` from `main.py`: one sync specification. -/
structure Sync where
  name : String
  types : List String
  url : String
  destination : String
  deriving DecidableEq, Repr

/-- Embedding of `@dataclass SyncList` from `main.py`: a lock file together
with the syncs guarded by it. -/
structure SyncList where
  lock_file : String
  syncs : List Sync
  deriving DecidableEq, Repr

/-- Embedding of `filter_syncs(lock_file, feed_type, *syncs)`: keeps exactly
the candidates whose `types` contain `feed_type`, in their original order.
The Python list comprehension `[sync for sync in syncs if feed_type in
sync.types]` is `List.filter`. -/
def filter_syncs (lock_file : String) (feed_type : String) (syncs : List Sync) : SyncList :=
  { lock_file := lock_file
    syncs := syncs.filter (fun sync => sync.types.contains feed_type) }

/-- Exceptions of the Python program that can cross `feed_sync`'s boundary:
`GreenboneFeedSyncError` (caught by `main`, message printed to stderr),
`KeyboardInterrupt` (caught by `main`), and any other exception type
(uncaught). `RsyncError` does not appear here because `feed_sync` handles it
internally. -/
inductive PyExc where
  | greenboneFeedSyncError (msg : String)
  | keyboardInterrupt
  | other (msg : String)
  deriving DecidableEq, Repr

/-- What `await rsync.sync(url=…, destination=…)` does for one spec in this
run: return normally, raise `RsyncError` (carrying its captured `stderr`
diagnostic output), or raise an exception of any other type. -/
inductive TransferResult where
  | ok
  | rsyncError (stderr : String)
  | otherExc (e : PyExc)
  deriving DecidableEq, Repr

/-- Observable actions of a run: lock acquisition/release on a lock file
(entry into and exit from the `async with flock_wait(…)` scope), a transfer
invocation, and a write to the error stream. -/
inductive Event where
  | lockAcquire (lock_file : String)
  | lockRelease (lock_file : String)
  | transfer (sync : Sync)
  | stderrWrite (msg : String)
  deriving DecidableEq, Repr

/-- How the inner `for sync in sync_list.syncs` loop of `feed_sync` ends:
it falls through normally (with the current value of `has_error`), executes
the fail-fast `return 1`, or lets a non-`RsyncError` exception propagate. -/
inductive InnerOutcome where
  | done (hasError : Bool)
  | earlyReturn (code : Nat)
  | raised (e : PyExc)
  deriving DecidableEq, Repr

/-- How `feed_sync` itself ends: a returned exit code or a raised
exception. -/
inductive FeedSyncResult where
  | exit (code : Nat)
  | raise (e : PyExc)
  deriving DecidableEq, Repr

/-- The body `for sync in sync_list.syncs: try: … await rsync.sync(…)
except RsyncError as e: print(e.stderr, file=sys.stderr); if
args.fail_fast: return 1; has_error = True` of `feed_sync`, for one group,
given the transfer collaborator `outcome` and the entry value of
`has_error`.  Returns the trace of this loop and how it ended. -/
def syncLoop (outcome : Sync → TransferResult) (failFast : Bool) :
    List Sync → Bool → List Event × InnerOutcome
  | [], hasError => ([], .done hasError)
  | sync :: rest, hasError =>
    match outcome sync with
    | .ok =>
      let r := syncLoop outcome failFast rest hasError
      (.transfer sync :: r.1, r.2)
    | .rsyncError stderr =>
      if failFast then
        ([.transfer sync, .stderrWrite stderr], .earlyReturn 1)
      else
        let r := syncLoop outcome failFast rest true
        (.transfer sync :: .stderrWrite stderr :: r.1, r.2)
    | .otherExc e => ([.transfer sync], .raised e)

/-- The outer `for sync_list in (openvas_syncs, gvmd_syncs)` loop of
`feed_sync` plus the final `return 1 if has_error else 0`, generalized to an
arbitrary ordered list of groups.  An empty group is skipped (`if not
sync_list.syncs: continue`) with no lock activity; a non-empty group's body
runs inside `async with flock_wait(sync_list.lock_file, …)`, whose guard is
released on every exit of the scope: normal completion, the fail-fast
`return 1`, and a propagating exception. -/
def groupsLoop (outcome : Sync → TransferResult) (failFast : Bool) :
    List SyncList → Bool → List Event × FeedSyncResult
  | [], hasError => ([], .exit (if hasError then 1 else 0))
  | g :: rest, hasError =>
    if g.syncs.isEmpty then
      groupsLoop outcome failFast rest hasError
    else
      let r := syncLoop outcome failFast g.syncs hasError
      match r.2 with
      | .done hasError2 =>
        let r2 := groupsLoop outcome failFast rest hasError2
        (.lockAcquire g.lock_file :: r.1 ++ .lockRelease g.lock_file :: r2.1, r2.2)
      | .earlyReturn code =>
        (.lockAcquire g.lock_file :: r.1 ++ [.lockRelease g.lock_file], .exit code)
      | .raised e =>
        (.lockAcquire g.lock_file :: r.1 ++ [.lockRelease g.lock_file], .raise e)

/-- The parsed command-line arguments consumed by `feed_sync`'s control flow
(CLI parsing itself is outside the core; `parser.parse_arguments()` yields a
fully populated structure). -/
structure Args where
  type : String
  fail_fast : Bool
  openvas_lock_file : String
  gvmd_lock_file : String
  notus_url : String
  notus_destination : String
  nasl_url : String
  nasl_destination : String
  scap_data_url : String
  scap_data_destination : String
  cert_data_url : String
  cert_data_destination : String
  report_formats_url : String
  report_formats_destination : String
  scan_configs_url : String
  scan_configs_destination : String
  port_lists_url : String
  port_lists_destination : String
  verbose : Nat
  no_wait : Bool
  wait_interval : Nat
  deriving DecidableEq, Repr

/-- The message of the `GreenboneFeedSyncError` raised when running as
root. -/
def rootErrorMsg : String :=
  "The sync script should not be run as root. Running the script as " ++
  "root may cause several hard to find permissions issues."

/-- The `openvas_syncs = filter_syncs(args.openvas_lock_file, args.type, …)`
call of `feed_sync`, with its two concrete candidate specs. -/
def openvas_syncs (args : Args) : SyncList :=
  filter_syncs args.openvas_lock_file args.type
    [ { name := "Notus files", types := ["notus", "nvt", "all"],
        url := args.notus_url, destination := args.notus_destination }
    , { name := "NASL files", types := ["nasl", "nvt", "all"],
        url := args.nasl_url, destination := args.nasl_destination } ]

/-- The `gvmd_syncs = filter_syncs(args.gvmd_lock_file, args.type, …)` call
of `feed_sync`, with its five concrete candidate specs. -/
def gvmd_syncs (args : Args) : SyncList :=
  filter_syncs args.gvmd_lock_file args.type
    [ { name := "SCAP data", types := ["scap", "all"],
        url := args.scap_data_url, destination := args.scap_data_destination }
    , { name := "CERT-Bund data", types := ["cert", "all"],
        url := args.cert_data_url, destination := args.cert_data_destination }
    , { name := "report formats", types := ["report-format", "gvmd-data", "all"],
        url := args.report_formats_url, destination := args.report_formats_destination }
    , { name := "scan configs", types := ["scan-config", "gvmd-data", "all"],
        url := args.scan_configs_url, destination := args.scan_configs_destination }
    , { name := "port lists", types := ["port-list", "gvmd-data", "all"],
        url := args.port_lists_url, destination := args.port_lists_destination } ]

/-- Embedding of `async def feed_sync() -> int`: first the root check
(`if is_root(): raise GreenboneFeedSyncError(…)`, where `is_root()` is
`os.geteuid() == 0`, abstracted as the boolean `isRoot`), then the group
construction via `filter_syncs` and the orchestration loop starting from
`has_error = False`. -/
def feed_sync (isRoot : Bool) (args : Args) (outcome : Sync → TransferResult) :
    List Event × FeedSyncResult :=
  if isRoot then
    ([], .raise (.greenboneFeedSyncError rootErrorMsg))
  else
    groupsLoop outcome args.fail_fast [openvas_syncs args, gvmd_syncs args] false

/-- The process-level outcome of `main()`: `sys.exit(code)`, or an exception
that `main` does not catch. -/
inductive MainResult where
  | exited (code : Nat)
  | uncaught (msg : String)
  deriving DecidableEq, Repr

/-- Embedding of `def main() -> NoReturn`: runs `feed_sync` and maps its
outcome — `sys.exit(asyncio.run(feed_sync()))`, `except
GreenboneFeedSyncError as e: print(str(e), file=sys.stderr); sys.exit(1)`,
`except KeyboardInterrupt: sys.exit(1)`; any other exception is uncaught. -/
def main (isRoot : Bool) (args : Args) (outcome : Sync → TransferResult) :
    List Event × MainResult :=
  match feed_sync isRoot args outcome with
  | (tr, .exit code) => (tr, .exited code)
  | (tr, .raise (.greenboneFeedSyncError msg)) =>
    (tr ++ [.stderrWrite msg], .exited 1)
  | (tr, .raise .keyboardInterrupt) => (tr, .exited 1)
  | (tr, .raise (.other msg)) => (tr, .uncaught msg)

/-- The transfers invoked during a run, in order, read off the trace. -/
def transfersOf (tr : List Event) : List Sync :=
  tr.filterMap fun e =>
    match e with
    | .transfer sync => some sync
    | _ => none

/-- One step of the lock-accounting abstraction: acquisitions push the lock
file onto the multiset of held locks, releases remove one occurrence, other
events leave it unchanged. -/
def locksStep (held : List String) : Event → List String
  | .lockAcquire f => f :: held
  | .lockRelease f => held.erase f
  | _ => held

/-- The locks still held after a trace has been executed, starting from no
held locks. -/
def locksHeldAfter (tr : List Event) : List String :=
  tr.foldl locksStep []

/-- Abstract (lock-free) view of the orchestration run over the flattened
list of specs: which transfers are invoked, in order, and how the run ends.
`groupsLoop` is proved below to refine this view. -/
def runAbs (outcome : Sync → TransferResult) (failFast : Bool) :
    List Sync → Bool → List Sync × FeedSyncResult
  | [], hasError => ([], .exit (if hasError then 1 else 0))
  | sync :: rest, hasError =>
    match outcome sync with
    | .ok =>
      let r := runAbs outcome failFast rest hasError
      (sync :: r.1, r.2)
    | .rsyncError _ =>
      if failFast then ([sync], .exit 1)
      else
        let r := runAbs outcome failFast rest true
        (sync :: r.1, r.2)
    | .otherExc e => ([sync], .raise e)

/-- A sample spec used to evaluate the development on concrete runs. -/
def specA : Sync :=
  { name := "A", types := ["all"], url := "rsync://a", destination := "/dst/a" }

/-- A sample spec used to evaluate the development on concrete runs. -/
def specB : Sync :=
  { name := "B", types := ["all"], url := "rsync://b", destination := "/dst/b" }

/-- A sample spec used to evaluate the development on concrete runs. -/
def specC : Sync :=
  { name := "C", types := ["all"], url := "rsync://c", destination := "/dst/c" }

/-- Two sample groups, mirroring the openvas/gvmd pair of `feed_sync`. -/
def groupsW : List SyncList :=
  [ { lock_file := "lock1", syncs := [specA, specB] }
  , { lock_file := "lock2", syncs := [specC] } ]

/-- A sample group with no syncs. -/
def groupE : SyncList := { lock_file := "lockE", syncs := [] }

/-- A collaborator whose every transfer succeeds. -/
def outcomeOk : Sync → TransferResult := fun _ => .ok

/-- A collaborator for which exactly spec "B" fails with `RsyncError`. -/
def outcomeFailB : Sync → TransferResult := fun s =>
  if s.name = "B" then .rsyncError "rsync stderr output" else .ok

/-- A collaborator for which exactly spec "B" raises a non-`RsyncError`
exception. -/
def outcomeBoomB : Sync → TransferResult := fun s =>
  if s.name = "B" then .otherExc (.other "boom") else .ok

/-- Sample parsed arguments whose feed type matches no spec. -/
def argsW : Args :=
  { type := "none", fail_fast := false
    openvas_lock_file := "openvas.lock", gvmd_lock_file := "gvmd.lock"
    notus_url := "", notus_destination := ""
    nasl_url := "", nasl_destination := ""
    scap_data_url := "", scap_data_destination := ""
    cert_data_url := "", cert_data_destination := ""
    report_formats_url := "", report_formats_destination := ""
    scan_configs_url := "", scan_configs_destination := ""
    port_lists_url := "", port_lists_destination := ""
    verbose := 0, no_wait := false, wait_interval := 5 }

@[simp] lemma transfersOf_nil : transfersOf [] = [] := rfl

@[simp] lemma transfersOf_transfer_cons (s : Sync) (tr : List Event) :
    transfersOf (.transfer s :: tr) = s :: transfersOf tr := rfl

@[simp] lemma transfersOf_lockAcquire_cons (f : String) (tr : List Event) :
    transfersOf (.lockAcquire f :: tr) = transfersOf tr := rfl

@[simp] lemma transfersOf_lockRelease_cons (f : String) (tr : List Event) :
    transfersOf (.lockRelease f :: tr) = transfersOf tr := rfl

@[simp] lemma transfersOf_stderrWrite_cons (m : String) (tr : List Event) :
    transfersOf (.stderrWrite m :: tr) = transfersOf tr := rfl

@[simp] lemma transfersOf_append (a b : List Event) :
    transfersOf (a ++ b) = transfersOf a ++ transfersOf b :=
  List.filterMap_append a b _

/-- The inner loop refines `runAbs`: running the abstract view on
`ss ++ ys` first behaves as the inner loop on `ss` dictates, and continues
with `ys` only if the inner loop fell through normally. -/
lemma syncLoop_runAbs (outcome : Sync → TransferResult) (ff : Bool) (ys : List Sync) :
    ∀ (ss : List Sync) (h : Bool),
      runAbs outcome ff (ss ++ ys) h =
        match (syncLoop outcome ff ss h).2 with
        | .done h2 =>
          (transfersOf (syncLoop outcome ff ss h).1 ++ (runAbs outcome ff ys h2).1,
            (runAbs outcome ff ys h2).2)
        | .earlyReturn code => (transfersOf (syncLoop outcome ff ss h).1, .exit code)
        | .raised e => (transfersOf (syncLoop outcome ff ss h).1, .raise e) := by
  intro ss
  induction ss with
  | nil => intro h; simp [syncLoop]
  | cons sync rest ih =>
    intro h
    cases hout : outcome sync with
    | ok =>
      cases hr : (syncLoop outcome ff rest h).2 with
      | done h2 =>
        have ih2 := ih h
        rw [hr] at ih2
        simp [runAbs, syncLoop, hout, hr, ih2]
      | earlyReturn code =>
        have ih2 := ih h
        rw [hr] at ih2
        simp [runAbs, syncLoop, hout, hr, ih2]
      | raised e =>
        have ih2 := ih h
        rw [hr] at ih2
        simp [runAbs, syncLoop, hout, hr, ih2]
    | rsyncError stderr =>
      cases ff with
      | true => simp [runAbs, syncLoop, hout, transfersOf]
      | false =>
        cases hr : (syncLoop outcome false rest true).2 with
        | done h2 =>
          have ih2 := ih true
          rw [hr] at ih2
          simp [runAbs, syncLoop, hout, hr, ih2]
        | earlyReturn code =>
          have ih2 := ih true
          rw [hr] at ih2
          simp [runAbs, syncLoop, hout, hr, ih2]
        | raised e =>
          have ih2 := ih true
          rw [hr] at ih2
          simp [runAbs, syncLoop, hout, hr, ih2]
    | otherExc e => simp [runAbs, syncLoop, hout, transfersOf]

/-- The orchestrator loop refines the abstract run on the flattened plan:
its transfers and its result are those of `runAbs` on the concatenation of
the groups' spec lists. -/
lemma groupsLoop_runAbs (outcome : Sync → TransferResult) (ff : Bool) :
    ∀ (groups : List SyncList) (h : Bool),
      transfersOf (groupsLoop outcome ff groups h).1 =
          (runAbs outcome ff ((groups.map SyncList.syncs).flatten) h).1 ∧
        (groupsLoop outcome ff groups h).2 =
          (runAbs outcome ff ((groups.map SyncList.syncs).flatten) h).2 := by
  intro groups
  induction groups with
  | nil => intro h; simp [groupsLoop, runAbs]
  | cons g rest ih =>
    intro h
    cases hg : g.syncs.isEmpty with
    | true =>
      have hnil : g.syncs = [] := List.isEmpty_iff.mp hg
      simpa [groupsLoop, hg, hnil] using ih h
    | false =>
      have hplan := syncLoop_runAbs outcome ff ((rest.map SyncList.syncs).flatten) g.syncs h
      cases hr2 : (syncLoop outcome ff g.syncs h).2 with
      | done h2 =>
        simp only [hr2] at hplan
        simp [groupsLoop, hg, hr2, List.map_cons, List.flatten, hplan, ih h2]
      | earlyReturn code =>
        simp only [hr2] at hplan
        simp [groupsLoop, hg, hr2, List.map_cons, List.flatten, hplan]
      | raised e =>
        simp only [hr2] at hplan
        simp [groupsLoop, hg, hr2, List.map_cons, List.flatten, hplan]

/-- The inner transfer loop emits only transfer and error-stream events,
never lock events. -/
lemma syncLoop_events (outcome : Sync → TransferResult) (ff : Bool) :
    ∀ (ss : List Sync) (h : Bool) (e : Event), e ∈ (syncLoop outcome ff ss h).1 →
      (∃ s, e = .transfer s) ∨ (∃ m, e = .stderrWrite m) := by
  intro ss
  induction ss with
  | nil => intro h e he; simp [syncLoop] at he
  | cons sync rest ih =>
    intro h e he
    cases hout : outcome sync with
    | ok =>
      rw [syncLoop, hout] at he
      simp only [List.mem_cons] at he
      rcases he with rfl | he
      · exact .inl ⟨sync, rfl⟩
      · exact ih h e he
    | rsyncError stderr =>
      rw [syncLoop, hout] at he
      cases ff with
      | true =>
        simp only [if_true, List.mem_cons, List.mem_singleton] at he
        rcases he with rfl | rfl | he
        · exact .inl ⟨sync, rfl⟩
        · exact .inr ⟨stderr, rfl⟩
        · simp at he
      | false =>
        simp only [Bool.false_eq_true, if_false, List.mem_cons] at he
        rcases he with rfl | rfl | he
        · exact .inl ⟨sync, rfl⟩
        · exact .inr ⟨stderr, rfl⟩
        · exact ih true e he
    | otherExc e2 =>
      rw [syncLoop, hout] at he
      simp only [List.mem_singleton] at he
      exact .inl ⟨sync, he⟩

/-- Folding the lock-accounting step over the inner loop's trace changes
nothing: it takes and releases no lock. -/
lemma foldl_locksStep_syncLoop (outcome : Sync → TransferResult) (ff : Bool) :
    ∀ (ss : List Sync) (h : Bool) (held : List String),
      ((syncLoop outcome ff ss h).1).foldl locksStep held = held := by
  intro ss
  induction ss with
  | nil => intro h held; simp [syncLoop]
  | cons sync rest ih =>
    intro h held
    cases hout : outcome sync with
    | ok => simp [syncLoop, hout, locksStep, ih]
    | rsyncError stderr =>
      cases ff with
      | true => simp [syncLoop, hout, locksStep]
      | false => simp [syncLoop, hout, locksStep, ih]
    | otherExc e => simp [syncLoop, hout, locksStep]

/-- Folding the lock-accounting step over the orchestrator's whole trace
changes nothing: every acquired lock is released. -/
lemma foldl_locksStep_groupsLoop (outcome : Sync → TransferResult) (ff : Bool) :
    ∀ (groups : List SyncList) (h : Bool) (held : List String),
      ((groupsLoop outcome ff groups h).1).foldl locksStep held = held := by
  intro groups
  induction groups with
  | nil => intro h held; simp [groupsLoop]
  | cons g rest ih =>
    intro h held
    cases hg : g.syncs.isEmpty with
    | true => simp [groupsLoop, hg, ih]
    | false =>
      cases hr : (syncLoop outcome ff g.syncs h).2 with
      | done h2 =>
        simp [groupsLoop, hg, hr, locksStep, List.foldl_append,
          foldl_locksStep_syncLoop, List.erase_cons_head, ih]
      | earlyReturn code =>
        simp [groupsLoop, hg, hr, locksStep, List.foldl_append,
          foldl_locksStep_syncLoop, List.erase_cons_head]
      | raised e =>
        simp [groupsLoop, hg, hr, locksStep, List.foldl_append,
          foldl_locksStep_syncLoop, List.erase_cons_head]

/-- Lock events do not occur in the inner loop's trace (count form). -/
lemma count_lock_syncLoop (outcome : Sync → TransferResult) (ff : Bool)
    (ss : List Sync) (h : Bool) (f : String) :
    ((syncLoop outcome ff ss h).1).count (.lockAcquire f) = 0 ∧
      ((syncLoop outcome ff ss h).1).count (.lockRelease f) = 0 := by
  constructor <;>
  · refine List.count_eq_zero.mpr fun hmem => ?_
    rcases syncLoop_events outcome ff ss h _ hmem with ⟨s, hs⟩ | ⟨m, hm⟩ <;>
      simp_all

/-- Each lock file is acquired exactly as many times as it is released over
the orchestrator's whole trace. -/
lemma count_locks_groupsLoop (outcome : Sync → TransferResult) (ff : Bool) :
    ∀ (groups : List SyncList) (h : Bool) (f : String),
      ((groupsLoop outcome ff groups h).1).count (.lockAcquire f) =
        ((groupsLoop outcome ff groups h).1).count (.lockRelease f) := by
  intro groups
  induction groups with
  | nil => intro h f; simp [groupsLoop]
  | cons g rest ih =>
    intro h f
    cases hg : g.syncs.isEmpty with
    | true => simp [groupsLoop, hg, ih]
    | false =>
      cases hr : (syncLoop outcome ff g.syncs h).2 with
      | done h2 =>
        have hc := count_lock_syncLoop outcome ff g.syncs h f
        simp [groupsLoop, hg, hr, List.count_cons, List.count_append,
          hc.1, hc.2, ih]
      | earlyReturn code =>
        have hc := count_lock_syncLoop outcome ff g.syncs h f
        simp [groupsLoop, hg, hr, List.count_cons, List.count_append,
          hc.1, hc.2]
      | raised e =>
        have hc := count_lock_syncLoop outcome ff g.syncs h f
        simp [groupsLoop, hg, hr, List.count_cons, List.count_append,
          hc.1, hc.2]

/-- Under fail-fast, once every spec before `s` succeeds and `s` fails with
`RsyncError`, the abstract run invokes exactly the transfers up to and
including `s` and exits with code 1. -/
lemma runAbs_failFast_stop (outcome : Sync → TransferResult) (s : Sync)
    (post : List Sync) (m : String) (hs : outcome s = .rsyncError m) :
    ∀ (pre : List Sync) (h : Bool), (∀ s2 ∈ pre, outcome s2 = .ok) →
      runAbs outcome true (pre ++ s :: post) h = (pre ++ [s], .exit 1) := by
  intro pre
  induction pre with
  | nil => intro h _; simp [runAbs, hs]
  | cons p rest ih =>
    intro h hp
    have hpok : outcome p = .ok := hp p (by simp)
    have ih2 := ih h fun s2 hmem => hp s2 (by simp [hmem])
    simp [runAbs, hpok, ih2]

/-- If every spec before `s` either succeeds or (without fail-fast) fails
with `RsyncError`, and `s` raises a non-`RsyncError` exception, the
abstract run invokes exactly the transfers up to and including `s` and
raises that exception. -/
lemma runAbs_otherExc_stop (outcome : Sync → TransferResult) (ff : Bool) (s : Sync)
    (post : List Sync) (e : PyExc) (hs : outcome s = .otherExc e) :
    ∀ (pre : List Sync) (h : Bool),
      (∀ s2 ∈ pre, outcome s2 = .ok ∨ (ff = false ∧ ∃ m, outcome s2 = .rsyncError m)) →
      runAbs outcome ff (pre ++ s :: post) h = (pre ++ [s], .raise e) := by
  intro pre
  induction pre with
  | nil => intro h _; simp [runAbs, hs]
  | cons p rest ih =>
    intro h hp
    have ih2 := fun h2 => ih h2 fun s2 hmem => hp s2 (by simp [hmem])
    rcases hp p (by simp) with hpok | ⟨hff, m, hm⟩
    · simp [runAbs, hpok, ih2 h]
    · subst hff
      simp [runAbs, hm, ih2 true]

/-- Without fail-fast, when no transfer raises a non-`RsyncError`
exception, the abstract run invokes every transfer in order and exits with
1 exactly when the error flag is set or some transfer failed, 0
otherwise. -/
lemma runAbs_no_otherExc (outcome : Sync → TransferResult) :
    ∀ (ss : List Sync) (h : Bool), (∀ s ∈ ss, ∀ e, outcome s ≠ .otherExc e) →
      runAbs outcome false ss h =
        (ss, .exit (if h = true ∨ ∃ s ∈ ss, ¬outcome s = .ok then 1 else 0)) := by
  intro ss
  induction ss with
  | nil => intro h _; simp [runAbs]
  | cons p rest ih =>
    intro h hno
    have ihrest := fun h2 => ih h2 fun s hmem e => hno s (by simp [hmem]) e
    cases hout : outcome p with
    | ok =>
      simp only [runAbs, hout, ihrest h]
      simp [hout]
    | rsyncError m =>
      simp only [runAbs, hout, Bool.false_eq_true, if_false, ihrest true]
      simp [hout]
    | otherExc e => exact absurd hout (hno p (by simp) e)

/-- C1: with fail-fast enabled, in every run in which the transfer for the
spec at some position of the flattened group sequence fails with a transfer
error (`RsyncError`) — i.e. every spec before it succeeded, so the run
reaches it — no transfer is invoked for any later spec of that group nor
for any spec of any subsequent group (the invoked transfers are exactly
`pre ++ [s]`), and the orchestrator's result is failure (return value 1). -/
theorem failFast_aborts_whole_run (outcome : Sync → TransferResult)
    (groups : List SyncList) (pre post : List Sync) (s : Sync) (m : String)
    (hplan : (groups.map SyncList.syncs).flatten = pre ++ s :: post)
    (hpre : ∀ s2 ∈ pre, outcome s2 = .ok)
    (hs : outcome s = .rsyncError m) :
    transfersOf (groupsLoop outcome true groups false).1 = pre ++ [s] ∧
      (groupsLoop outcome true groups false).2 = .exit 1 := by
  have hmain := groupsLoop_runAbs outcome true groups false
  rw [hplan, runAbs_failFast_stop outcome s post m hs pre false hpre] at hmain
  exact hmain

/-- Witness for C1 on a concrete run: two groups, spec "B" (second of the
first group) fails, so only "A" and "B" are transferred, "C" is not, and
the result is exit code 1. -/
theorem failFast_aborts_whole_run_witness :
    transfersOf (groupsLoop outcomeFailB true groupsW false).1 = [specA, specB] ∧
      (groupsLoop outcomeFailB true groupsW false).2 = .exit 1 :=
  failFast_aborts_whole_run outcomeFailB groupsW [specA] [specC] specB
    "rsync stderr output" rfl (by decide) rfl

/-- C2: with fail-fast disabled, in every run whose transfers fail only
with the typed transfer error (`RsyncError`) if at all, every spec of every
group is transferred in order — an error at one spec prevents no later
spec or group — and the orchestrator's result is failure (1) if and only if
at least one transfer failed, success (0) otherwise. -/
theorem continueOnError_runs_all (outcome : Sync → TransferResult)
    (groups : List SyncList)
    (hno : ∀ s ∈ (groups.map SyncList.syncs).flatten, ∀ e, outcome s ≠ .otherExc e) :
    transfersOf (groupsLoop outcome false groups false).1 =
        (groups.map SyncList.syncs).flatten ∧
      ((groupsLoop outcome false groups false).2 = .exit 1 ↔
        ∃ s ∈ (groups.map SyncList.syncs).flatten, ∃ m, outcome s = .rsyncError m) ∧
      ((groupsLoop outcome false groups false).2 = .exit 0 ↔
        ∀ s ∈ (groups.map SyncList.syncs).flatten, outcome s = .ok) := by
  have hmain := groupsLoop_runAbs outcome false groups false
  rw [runAbs_no_otherExc outcome _ false hno] at hmain
  have hiff : (∃ s ∈ (groups.map SyncList.syncs).flatten, ¬outcome s = .ok) ↔
      (∃ s ∈ (groups.map SyncList.syncs).flatten, ∃ m, outcome s = .rsyncError m) := by
    constructor
    · rintro ⟨s, hmem, hnok⟩
      refine ⟨s, hmem, ?_⟩
      cases ho : outcome s with
      | ok => exact absurd ho hnok
      | rsyncError m => exact ⟨m, rfl⟩
      | otherExc e => exact absurd ho (hno s hmem e)
    · rintro ⟨s, hmem, m, hm⟩
      exact ⟨s, hmem, by simp [hm]⟩
  refine ⟨hmain.1, ?_, ?_⟩
  · rw [hmain.2]
    by_cases hc : ∃ s ∈ (groups.map SyncList.syncs).flatten, ¬outcome s = .ok
    · rw [if_pos (Or.inr hc)]
      exact ⟨fun _ => hiff.mp hc, fun _ => rfl⟩
    · rw [if_neg (by simpa using hc)]
      constructor
      · intro habs
        exact absurd habs (by simp)
      · intro hex
        exact absurd (hiff.mpr hex) hc
  · rw [hmain.2]
    by_cases hc : ∃ s ∈ (groups.map SyncList.syncs).flatten, ¬outcome s = .ok
    · rw [if_pos (Or.inr hc)]
      constructor
      · intro habs
        exact absurd habs (by simp)
      · intro hall
        rcases hc with ⟨s, hmem, hnok⟩
        exact absurd (hall s hmem) hnok
    · rw [if_neg (by simpa using hc)]
      push_neg at hc
      exact ⟨fun _ => hc, fun _ => rfl⟩

/-- Witness for C2 on a concrete run: spec "B" fails without fail-fast, all
three specs are still transferred, and the exit code is 1. -/
theorem continueOnError_runs_all_witness :
    transfersOf (groupsLoop outcomeFailB false groupsW false).1 =
        [specA, specB, specC] ∧
      ((groupsLoop outcomeFailB false groupsW false).2 = .exit 1 ↔
        ∃ s ∈ [specA, specB, specC], ∃ m, outcomeFailB s = .rsyncError m) ∧
      ((groupsLoop outcomeFailB false groupsW false).2 = .exit 0 ↔
        ∀ s ∈ [specA, specB, specC], outcomeFailB s = .ok) := by
  refine continueOnError_runs_all outcomeFailB groupsW ?_
  intro s hmem e
  have hmem2 : s = specA ∨ s = specB ∨ s = specC := by
    simpa [groupsW] using hmem
  rcases hmem2 with rfl | rfl | rfl <;> simp [outcomeFailB, specA, specB, specC]

/-- C3: `filter_syncs` returns a `SyncList` whose lock file is the given
identifier and whose syncs are exactly the subsequence of the candidates —
original relative order preserved — whose `types` contain the feed type; it
is a total pure function (a Lean `def`, so it has no side effects and never
fails), and a feed type matching no candidate yields empty syncs. -/
theorem filter_syncs_spec (lock_file feed_type : String) (syncs : List Sync) :
    (filter_syncs lock_file feed_type syncs).lock_file = lock_file ∧
      List.Sublist (filter_syncs lock_file feed_type syncs).syncs syncs ∧
      (∀ s, s ∈ (filter_syncs lock_file feed_type syncs).syncs ↔
        s ∈ syncs ∧ feed_type ∈ s.types) ∧
      (filter_syncs lock_file feed_type syncs).syncs =
        syncs.filter (fun s => s.types.contains feed_type) ∧
      ((∀ s ∈ syncs, feed_type ∉ s.types) →
        (filter_syncs lock_file feed_type syncs).syncs = []) := by
  refine ⟨rfl, List.filter_sublist syncs, ?_, rfl, ?_⟩
  · intro s
    simp [filter_syncs, List.mem_filter]
  · intro hnone
    simp only [filter_syncs]
    rw [List.filter_eq_nil_iff]
    intro s hmem
    simpa using hnone s hmem

/-- Witness for C3 on concrete data: filtering the gvmd candidates of
`feed_sync` by feed type "gvmd-data" keeps exactly the last three specs in
order, and a type matching nothing yields empty syncs. -/
theorem filter_syncs_spec_witness :
    (filter_syncs "gvmd.lock" "none" (gvmd_syncs argsW).syncs).syncs = [] ∧
      ("report-format" ∈
          ({ name := "report formats", types := ["report-format", "gvmd-data", "all"],
             url := "", destination := "" : Sync}).types ↔ True) :=
  ⟨(filter_syncs_spec "gvmd.lock" "none" (gvmd_syncs argsW).syncs).2.2.2.2
      (by decide),
    by simp⟩

/-- C4: `filter_syncs` is idempotent — filtering its own output again with
the same lock file and feed type yields the same `SyncList`.  (In this pure
embedding the input list itself is immutable, matching the claim that
filtering never mutates its input specs.) -/
theorem filter_syncs_idempotent (lock_file feed_type : String) (syncs : List Sync) :
    filter_syncs lock_file feed_type ((filter_syncs lock_file feed_type syncs).syncs) =
      filter_syncs lock_file feed_type syncs := by
  simp [filter_syncs, List.filter_filter]

/-- C5: a group whose `syncs` list is empty is skipped entirely by the
orchestrator: the run with the empty group anywhere in the sequence is
identical — same trace (so no lock acquisition on its lock file and no
transfer for it) and same result — to the run without it. -/
theorem empty_group_skipped (outcome : Sync → TransferResult) (ff : Bool)
    (pre post : List SyncList) (g : SyncList) (hg : g.syncs = []) :
    ∀ h : Bool, groupsLoop outcome ff (pre ++ g :: post) h =
      groupsLoop outcome ff (pre ++ post) h := by
  induction pre with
  | nil => intro h; simp [groupsLoop, hg]
  | cons p rest ih =>
    intro h
    cases hp : p.syncs.isEmpty with
    | true => simpa only [List.cons_append, groupsLoop, hp, if_true] using ih h
    | false =>
      cases hr : (syncLoop outcome ff p.syncs h).2 with
      | done h2 => simp [groupsLoop, hp, hr, ih h2]
      | earlyReturn code => simp [groupsLoop, hp, hr]
      | raised e => simp [groupsLoop, hp, hr]

/-- Witness for C5 on a concrete run: prepending an empty group changes
nothing about the run. -/
theorem empty_group_skipped_witness :
    groupsLoop outcomeOk false (groupE :: groupsW) false =
      groupsLoop outcomeOk false groupsW false :=
  empty_group_skipped outcomeOk false [] groupsW groupE rfl false

/-- C6: a run started under a root identity raises the fatal
`GreenboneFeedSyncError` before any group processing: the trace is empty
(so the group filter's output is never consumed, no lock is acquired and no
transfer is attempted) and the result is that precondition error. -/
theorem root_run_refused (args : Args) (outcome : Sync → TransferResult) :
    feed_sync true args outcome =
      ([], .raise (.greenboneFeedSyncError rootErrorMsg)) := rfl

/-- C7: `main` maps `feed_sync`'s outcomes to the process exit status: a
returned code is exited with as-is (0 on success, 1 when an error was
recorded or fail-fast fired), the fatal `GreenboneFeedSyncError` is written
to the error stream and exits 1, and `KeyboardInterrupt` exits 1. -/
theorem main_maps_outcomes (isRoot : Bool) (args : Args)
    (outcome : Sync → TransferResult) (tr : List Event) :
    (∀ code, feed_sync isRoot args outcome = (tr, .exit code) →
        main isRoot args outcome = (tr, .exited code)) ∧
      (∀ msg, feed_sync isRoot args outcome = (tr, .raise (.greenboneFeedSyncError msg)) →
        main isRoot args outcome = (tr ++ [.stderrWrite msg], .exited 1)) ∧
      (feed_sync isRoot args outcome = (tr, .raise .keyboardInterrupt) →
        main isRoot args outcome = (tr, .exited 1)) := by
  refine ⟨fun code hf => ?_, fun msg hf => ?_, fun hf => ?_⟩ <;> simp [main, hf]

/-- Witness for C7 on concrete runs: a run whose feed type matches nothing
exits 0, and a root run writes the fatal message to the error stream and
exits 1. -/
theorem main_maps_outcomes_witness :
    main false argsW outcomeOk = ([], .exited 0) ∧
      main true argsW outcomeOk = ([.stderrWrite rootErrorMsg], .exited 1) :=
  ⟨(main_maps_outcomes false argsW outcomeOk []).1 0 rfl,
    (main_maps_outcomes true argsW outcomeOk []).2.1 rootErrorMsg rfl⟩

/-- C8: over every run of the orchestrator loop — whatever the transfer
outcomes (success, recorded `RsyncError`, fail-fast early return, or a
propagating exception, which also models cancellation) — no lock is still
held after the run's trace, and each lock file is acquired exactly as often
as it is released. -/
theorem lock_released_on_all_exits (outcome : Sync → TransferResult) (ff : Bool)
    (groups : List SyncList) (h : Bool) :
    locksHeldAfter (groupsLoop outcome ff groups h).1 = [] ∧
      ∀ f, ((groupsLoop outcome ff groups h).1).count (.lockAcquire f) =
        ((groupsLoop outcome ff groups h).1).count (.lockRelease f) :=
  ⟨foldl_locksStep_groupsLoop outcome ff groups h [], fun f =>
    count_locks_groupsLoop outcome ff groups h f⟩

/-- Whenever the inner loop's trace shows a transfer for a spec that fails
with `RsyncError`, the same trace contains the write of that error's
captured diagnostic output to the error stream. -/
lemma syncLoop_stderr (outcome : Sync → TransferResult) (ff : Bool) (s : Sync)
    (m : String) (hs : outcome s = .rsyncError m) :
    ∀ (ss : List Sync) (h : Bool),
      Event.transfer s ∈ (syncLoop outcome ff ss h).1 →
      Event.stderrWrite m ∈ (syncLoop outcome ff ss h).1 := by
  intro ss
  induction ss with
  | nil => intro h hmem; simp [syncLoop] at hmem
  | cons sync rest ih =>
    intro h hmem
    cases hout : outcome sync with
    | ok =>
      rw [syncLoop, hout] at hmem ⊢
      simp only [List.mem_cons] at hmem ⊢
      rcases hmem with heq | hmem
      · obtain rfl : s = sync := by injection heq
        rw [hout] at hs
        simp at hs
      · exact Or.inr (ih h hmem)
    | rsyncError stderr =>
      rw [syncLoop, hout] at hmem ⊢
      cases ff with
      | true =>
        simp only [if_true, List.mem_cons, List.not_mem_nil, or_false] at hmem ⊢
        rcases hmem with heq | heq
        · obtain rfl : s = sync := by injection heq
          rw [hout] at hs
          obtain rfl : stderr = m := by injection hs
          simp
        · exact absurd heq (by simp)
      | false =>
        simp only [Bool.false_eq_true, if_false, List.mem_cons] at hmem ⊢
        rcases hmem with heq | heq | hmem
        · obtain rfl : s = sync := by injection heq
          rw [hout] at hs
          obtain rfl : stderr = m := by injection hs
          simp
        · exact absurd heq (by simp)
        · exact Or.inr (Or.inr (ih true hmem))
    | otherExc e =>
      rw [syncLoop, hout] at hmem
      simp only [List.mem_cons, List.not_mem_nil, or_false] at hmem
      obtain rfl : s = sync := by injection hmem
      rw [hout] at hs
      simp at hs

/-- C9: every transfer that fails with the typed transfer error
(`RsyncError`) has its captured diagnostic output written to the error
stream, under both the fail-fast and the continue-on-error policy: if the
run's trace shows the transfer of a spec whose outcome is `RsyncError`,
the trace also contains the error-stream write of its diagnostic output —
no transfer error is silently swallowed. -/
theorem rsync_error_surfaced (outcome : Sync → TransferResult) (ff : Bool)
    (s : Sync) (m : String) (hs : outcome s = .rsyncError m) :
    ∀ (groups : List SyncList) (h : Bool),
      Event.transfer s ∈ (groupsLoop outcome ff groups h).1 →
      Event.stderrWrite m ∈ (groupsLoop outcome ff groups h).1 := by
  intro groups
  induction groups with
  | nil => intro h hmem; simp [groupsLoop] at hmem
  | cons g rest ih =>
    intro h hmem
    cases hg : g.syncs.isEmpty with
    | true =>
      simp only [groupsLoop, hg, if_true] at hmem ⊢
      exact ih h hmem
    | false =>
      cases hr : (syncLoop outcome ff g.syncs h).2 with
      | done h2 =>
        have htr : (groupsLoop outcome ff (g :: rest) h).1 =
            .lockAcquire g.lock_file :: ((syncLoop outcome ff g.syncs h).1 ++
              .lockRelease g.lock_file :: (groupsLoop outcome ff rest h2).1) := by
          simp [groupsLoop, hg, hr]
        rw [htr] at hmem ⊢
        rcases List.mem_cons.mp hmem with heq | hmem2
        · exact absurd heq (by simp)
        · rcases List.mem_append.mp hmem2 with hmem3 | hmem3
          · exact List.mem_cons_of_mem _ (List.mem_append_left _
              (syncLoop_stderr outcome ff s m hs g.syncs h hmem3))
          · rcases List.mem_cons.mp hmem3 with heq | hmem4
            · exact absurd heq (by simp)
            · exact List.mem_cons_of_mem _ (List.mem_append_right _
                (List.mem_cons_of_mem _ (ih h2 hmem4)))
      | earlyReturn code =>
        have htr : (groupsLoop outcome ff (g :: rest) h).1 =
            .lockAcquire g.lock_file :: ((syncLoop outcome ff g.syncs h).1 ++
              [.lockRelease g.lock_file]) := by
          simp [groupsLoop, hg, hr]
        rw [htr] at hmem ⊢
        rcases List.mem_cons.mp hmem with heq | hmem2
        · exact absurd heq (by simp)
        · rcases List.mem_append.mp hmem2 with hmem3 | hmem3
          · exact List.mem_cons_of_mem _ (List.mem_append_left _
              (syncLoop_stderr outcome ff s m hs g.syncs h hmem3))
          · exact absurd (List.mem_singleton.mp hmem3) (by simp)
      | raised e =>
        have htr : (groupsLoop outcome ff (g :: rest) h).1 =
            .lockAcquire g.lock_file :: ((syncLoop outcome ff g.syncs h).1 ++
              [.lockRelease g.lock_file]) := by
          simp [groupsLoop, hg, hr]
        rw [htr] at hmem ⊢
        rcases List.mem_cons.mp hmem with heq | hmem2
        · exact absurd heq (by simp)
        · rcases List.mem_append.mp hmem2 with hmem3 | hmem3
          · exact List.mem_cons_of_mem _ (List.mem_append_left _
              (syncLoop_stderr outcome ff s m hs g.syncs h hmem3))
          · exact absurd (List.mem_singleton.mp hmem3) (by simp)

/-- Witness for C9 on a concrete run: spec "B" fails under fail-fast and
its diagnostic output appears in the trace. -/
theorem rsync_error_surfaced_witness :
    Event.stderrWrite "rsync stderr output" ∈
      (groupsLoop outcomeFailB true groupsW false).1 :=
  rsync_error_surfaced outcomeFailB true specB "rsync stderr output" rfl
    groupsW false (by decide)

/-- C10: the per-spec handler catches exactly `RsyncError`: when the run
reaches a spec whose transfer raises an exception of any other type (every
earlier spec succeeded, or — without fail-fast — failed with a recorded
`RsyncError`), that exception is not recorded in the had-error result and
not subject to the fail-fast/continue policy but propagates out of the
orchestrator (result `.raise e` under either policy), aborting the
remainder of the run — no transfer after it — with every acquired lock
released by the scoped guard. -/
theorem non_rsync_exception_propagates (outcome : Sync → TransferResult)
    (ff : Bool) (groups : List SyncList) (pre post : List Sync) (s : Sync)
    (e : PyExc)
    (hplan : (groups.map SyncList.syncs).flatten = pre ++ s :: post)
    (hpre : ∀ s2 ∈ pre, outcome s2 = .ok ∨ (ff = false ∧ ∃ m, outcome s2 = .rsyncError m))
    (hs : outcome s = .otherExc e) :
    transfersOf (groupsLoop outcome ff groups false).1 = pre ++ [s] ∧
      (groupsLoop outcome ff groups false).2 = .raise e ∧
      locksHeldAfter (groupsLoop outcome ff groups false).1 = [] := by
  have hmain := groupsLoop_runAbs outcome ff groups false
  rw [hplan, runAbs_otherExc_stop outcome ff s post e hs pre false hpre] at hmain
  exact ⟨hmain.1, hmain.2, foldl_locksStep_groupsLoop outcome ff groups false []⟩

/-- Witness for C10 on a concrete run: spec "B" raises a non-`RsyncError`
exception under fail-fast; "A" and "B" are transferred, "C" is not, the
exception propagates, and no lock stays held. -/
theorem non_rsync_exception_propagates_witness :
    transfersOf (groupsLoop outcomeBoomB true groupsW false).1 = [specA, specB] ∧
      (groupsLoop outcomeBoomB true groupsW false).2 = .raise (.other "boom") ∧
      locksHeldAfter (groupsLoop outcomeBoomB true groupsW false).1 = [] :=
  non_rsync_exception_propagates outcomeBoomB true groupsW [specA] [specC] specB
    (.other "boom") rfl
    (by
      intro s2 hmem
      have h2 : s2 = specA := by simpa using hmem
      subst h2
      exact Or.inl rfl)
    rfl

end GreenboneFeed
